import Mathlib

/-!
Shallow embedding of the TP-Link Kasa protocol codec, responder and
stream-listener loop from `src/main/tplink_kasa.c` and `src/main/wifi.c`.

Bytes are modelled as `Nat` values below 256; buffers as `List Nat`.
The C `char` signedness is irrelevant: every byte-level operation in the
source (XOR, byte reinterpretation through the union, comparisons on the
`uint32_t` member) depends only on the bit pattern.
-/

/-- The autokey cipher seed, `const char cipher_key = 171` in the source. -/
def cipher_key : Nat := 171

/-- `sizeof(union payload_header)`: 4 bytes. -/
def header_size : Nat := 4

/-- The big-endian 32-bit value read from the first four bytes of the
buffer, as assembled by `tplink_kasa_decrypt` through the union
(`header.bytes[3] = encrypted_payload[0]`, ..., so byte 0 is the most
significant). -/
def header_value (enc : List Nat) : Nat :=
  enc.getD 0 0 * 2 ^ 24 + enc.getD 1 0 * 2 ^ 16 + enc.getD 2 0 * 2 ^ 8 + enc.getD 3 0

/-- The four header bytes written by `tplink_kasa_encrypt`: the payload
length stored in the `uint32_t` union member (hence reduced mod 2^32) and
emitted most-significant byte first. -/
def header_bytes (len : Nat) : List Nat :=
  [len % 2 ^ 32 / 2 ^ 24, len % 2 ^ 24 / 2 ^ 16, len % 2 ^ 16 / 2 ^ 8, len % 2 ^ 8]

/-- The decrypt loop of `tplink_kasa_decrypt`: each plaintext byte is the
ciphertext byte XOR the running key, and the key is then set to the
ciphertext byte just consumed (`key = encrypted_payload[i + header_len]`). -/
def decryptStream (key : Nat) : List Nat → List Nat
  | [] => []
  | c :: cs => (c ^^^ key) :: decryptStream c cs

/-- The encrypt loop of `tplink_kasa_encrypt`: each ciphertext byte is the
plaintext byte XOR the running key, and the key is then set to the
ciphertext byte just produced (`key = encrypted_payload[i + header_len] = payload[i] ^ key`). -/
def encryptStream (key : Nat) : List Nat → List Nat
  | [] => []
  | p :: ps => (p ^^^ key) :: encryptStream (p ^^^ key) ps

/-- `tplink_kasa_decrypt` from `src/main/tplink_kasa.c`, lines 112-155.
The input list holds exactly the `encrypted_len` supplied bytes; the
result is the decrypted payload together with the returned length.
The `include_header` parameter is accepted and, as in the source, never
used. -/
def tplink_kasa_decrypt (encrypted_payload : List Nat) (include_header : Bool) :
    List Nat × Nat :=
  let encrypted_len := encrypted_payload.length
  if encrypted_len ≤ header_size then ([], 0)
  else
    let declared := header_value encrypted_payload
    let header_len := if declared > encrypted_len - header_size then 0 else header_size
    let payload_length := if declared > encrypted_len - header_size then encrypted_len else declared
    (decryptStream cipher_key ((encrypted_payload.drop header_len).take payload_length),
     payload_length)

/-- `tplink_kasa_encrypt` from `src/main/tplink_kasa.c`, lines 157-191,
abstracted over the serialized payload bytes (`cJSON_PrintUnformatted`
output, a NUL-free byte string whose `strlen` is its length).  With
`include_header = false` the ciphertext overwrites the header bytes
starting at offset 0, so the first `strlen(payload)` output bytes are the
bare ciphertext; the returned length excludes the header. -/
def tplink_kasa_encrypt (payload : List Nat) (include_header : Bool) :
    List Nat × Nat :=
  let encrypted := encryptStream cipher_key payload
  let header_len := if include_header then header_size else 0
  ((if include_header then header_bytes payload.length ++ encrypted else encrypted),
   payload.length + header_len)

/-- The (index, value) pairs written to `decrypted_payload` by
`tplink_kasa_decrypt`: on the short-input path only `decrypted_payload[0] = 0`;
otherwise the loop writes indices `0 .. payload_length - 1` and the
terminator write puts 0 at index `payload_length`. -/
def decryptWrites (encrypted_payload : List Nat) : List (Nat × Nat) :=
  let encrypted_len := encrypted_payload.length
  if encrypted_len ≤ header_size then [(0, 0)]
  else
    let declared := header_value encrypted_payload
    let header_len := if declared > encrypted_len - header_size then 0 else header_size
    let payload_length := if declared > encrypted_len - header_size then encrypted_len else declared
    (List.range payload_length).zip
        (decryptStream cipher_key ((encrypted_payload.drop header_len).take payload_length))
      ++ [(payload_length, 0)]

/-- The indices of `encrypted_payload` read by `tplink_kasa_decrypt`:
bytes 0-3 for the header, then `i + header_len` for each loop index `i`. -/
def decryptReadIdxs (encrypted_payload : List Nat) : List Nat :=
  let encrypted_len := encrypted_payload.length
  if encrypted_len ≤ header_size then []
  else
    let declared := header_value encrypted_payload
    let header_len := if declared > encrypted_len - header_size then 0 else header_size
    let payload_length := if declared > encrypted_len - header_size then encrypted_len else declared
    [0, 1, 2, 3] ++ (List.range payload_length).map (· + header_len)

/-- The capacity of the `json_string` buffer allocated by
`tplink_kasa_process_buffer`: `malloc(buffer_len * sizeof(char))`, i.e.
exactly `buffer_len` bytes. -/
def json_string_capacity (buffer_len : Nat) : Nat := buffer_len

theorem length_decryptStream (key : Nat) (cs : List Nat) :
    (decryptStream key cs).length = cs.length := by
  induction cs generalizing key with
  | nil => rfl
  | cons c cs ih => simp [decryptStream, ih]

theorem length_encryptStream (key : Nat) (ps : List Nat) :
    (encryptStream key ps).length = ps.length := by
  induction ps generalizing key with
  | nil => rfl
  | cons p ps ih => simp [encryptStream, ih]

theorem decryptStream_encryptStream (key : Nat) (m : List Nat) :
    decryptStream key (encryptStream key m) = m := by
  induction m generalizing key with
  | nil => rfl
  | cons p ps ih => simp [encryptStream, decryptStream, ih, Nat.xor_cancel_right]

theorem header_value_header_bytes (len : Nat) (r : List Nat) (h : len < 2 ^ 32) :
    header_value (header_bytes len ++ r) = len := by
  simp only [header_bytes, List.cons_append, List.nil_append, header_value,
    List.getD_cons_zero, List.getD_cons_succ]
  omega

theorem getD_decryptStream (key : Nat) (cs : List Nat) (i : Nat) (hi : i < cs.length) :
    (decryptStream key cs).getD i 0
      = cs.getD i 0 ^^^ (if i = 0 then key else cs.getD (i - 1) 0) := by
  induction cs generalizing key i with
  | nil => simp at hi
  | cons c cs ih =>
    match i with
    | 0 => simp [decryptStream]
    | 1 => 
      rcases cs with _ | ⟨c2, cs⟩
      · simp at hi
      · simp [decryptStream]
    | (j + 2) =>
      have hj : j + 1 < cs.length := by simp at hi; omega
      simp only [decryptStream, List.getD_cons_succ]
      rw [ih c (j + 1) hj]
      simp

theorem getD_encryptStream (key : Nat) (ps : List Nat) (j : Nat) (hj : j < ps.length) :
    (encryptStream key ps).getD j 0
      = ps.getD j 0 ^^^ (if j = 0 then key else (encryptStream key ps).getD (j - 1) 0) := by
  induction ps generalizing key j with
  | nil => simp at hj
  | cons p ps ih =>
    match j with
    | 0 => simp [encryptStream]
    | (j + 1) =>
      have hj' : j < ps.length := by simpa using hj
      simp only [encryptStream, List.getD_cons_succ]
      rw [ih (p ^^^ key) j hj']
      match j with
      | 0 => simp
      | (k + 1) => simp [encryptStream]

theorem decrypt_fallback (enc : List Nat) (hlen : header_size < enc.length)
    (hdecl : enc.length - header_size < header_value enc) (H : Bool) :
    tplink_kasa_decrypt enc H = (decryptStream cipher_key enc, enc.length) := by
  rw [tplink_kasa_decrypt]
  simp only [if_neg (by omega : ¬ enc.length ≤ header_size),
    if_pos (by omega : header_value enc > enc.length - header_size),
    List.drop_zero, List.take_length]

theorem decrypt_header_append (c : List Nat) (h0 : c ≠ []) (h32 : c.length < 2 ^ 32) (H : Bool) :
    tplink_kasa_decrypt (header_bytes c.length ++ c) H
      = (decryptStream cipher_key c, c.length) := by
  have hlen : (header_bytes c.length ++ c).length = 4 + c.length := by
    simp [header_bytes]; omega
  have hval : header_value (header_bytes c.length ++ c) = c.length :=
    header_value_header_bytes _ _ h32
  have hpos : 0 < c.length := List.length_pos.mpr h0
  have hdrop : (header_bytes c.length ++ c).drop 4 = c := by
    simp [header_bytes]
  rw [tplink_kasa_decrypt]
  simp only [hlen, hval, header_size]
  rw [if_neg (by omega), if_neg (by omega), if_neg (by omega)]
  rw [hdrop, List.take_length]

/-- Structured documents as handled through the cJSON library (an external
ESP-IDF component, modelled abstractly): objects keep their member list in
insertion order, numbers in the documents handled here are integers. -/
inductive Json where
  | null : Json
  | bool : Bool → Json
  | num : Int → Json
  | str : String → Json
  | arr : List Json → Json
  | obj : List (String × Json) → Json

/-- `cJSON_GetObjectItem`: member lookup on an object, `NULL` (here `none`)
when the node is `NULL`, not an object, or has no member of that name. -/
def cJSON_GetObjectItem : Option Json → String → Option Json
  | some (Json.obj fields), name => (fields.find? (fun p => p.1 = name)).map Prod.snd
  | _, _ => none

/-- `cJSON_HasObjectItem`, false on a `NULL` node. -/
def cJSON_HasObjectItem (j : Option Json) (name : String) : Bool :=
  (cJSON_GetObjectItem j name).isSome

/-- The effect on a document tree of looking up the object at `path` with
`cJSON_GetObjectItem` and calling `cJSON_AddItemToObject(node, name, item)`
on it: the new member is appended at that node; when the path does not
resolve to an existing member the lookup yields `NULL` and the add is a
no-op (cJSON checks its object argument for `NULL`), leaving the tree
unchanged. -/
def addItemAtPath (j : Json) (path : List String) (name : String) (item : Json) : Json :=
  match path with
  | [] =>
    match j with
    | Json.obj fields => Json.obj (fields ++ [(name, item)])
    | _ => j
  | p :: ps =>
    match j with
    | Json.obj fields =>
      Json.obj (fields.map (fun q => if q.1 = p then (q.1, addItemAtPath q.2 ps name item) else q))
    | _ => j

/-- The static device descriptor template `tplink_kasa_sysinfo`
(`src/main/tplink_kasa.c` lines 23-62), as the document tree produced by
parsing it. -/
def tplink_kasa_sysinfo : Json :=
  Json.obj [("system", Json.obj [("get_sysinfo", Json.obj
    [("sw_ver", Json.str "1.0.0 Build 000001 Rel.000001"),
     ("hw_ver", Json.str "1.0"),
     ("model", Json.str "KL130B(UN)"),
     ("deviceId", Json.str "80121C1874CF2DEA94DF3127F8DDF7D71DD7112F"),
     ("oemId", Json.str "E45F76AD3AF13E60B58D6F68739CD7E5"),
     ("hwId", Json.str "1E97141B9F0E939BD8F9679F0B6167C8"),
     ("rssi", Json.num (-71)),
     ("latitude_i", Json.num 0),
     ("longitude_i", Json.num 0),
     ("alias", Json.str "Back Light"),
     ("status", Json.str "new"),
     ("description", Json.str "WiFi BLE Smart Bulb Bridge"),
     ("mic_type", Json.str "IOT.SMARTBULB"),
     ("mic_mac", Json.str "C0C9E3AD7C1D"),
     ("dev_state", Json.str "normal"),
     ("is_factory", Json.bool false),
     ("disco_ver", Json.str "1.0"),
     ("ctrl_protocols", Json.obj
       [("name", Json.str "Linkie"), ("version", Json.str "1.0")]),
     ("active_mode", Json.str "none"),
     ("is_dimmable", Json.num 1),
     ("is_color", Json.num 1),
     ("is_variable_color_temp", Json.num 1),
     ("light_state", Json.obj [("on_off", Json.num 0)]),
     ("err_code", Json.num 0)])])]

/-- The response document built by `tplink_kasa_process_buffer`
(lines 88-102): the parsed template, with `temperature`, `humidity` and
`err_code` added to the node found at `system.get_sysinfo.state`.  The
source uses the compile-time constants `temperature = 0`, `humidity = 0`
(it performs no sensor read). -/
def buildSysinfoResponse : Json :=
  let temperature : Int := 0
  let humidity : Int := 0
  let r := tplink_kasa_sysinfo
  let r := addItemAtPath r ["system", "get_sysinfo", "state"] "temperature" (Json.num temperature)
  let r := addItemAtPath r ["system", "get_sysinfo", "state"] "humidity" (Json.num humidity)
  addItemAtPath r ["system", "get_sysinfo", "state"] "err_code" (Json.num 0)

/-- `tplink_kasa_process_buffer` (lines 64-110), abstracted over the cJSON
parser and serializer (external library code): decrypt the received bytes,
parse them, and if the document has a `get_sysinfo` member under `system`
reply with the encrypted response document; otherwise (including parse
failure) return length 0 with the buffer not overwritten. -/
def tplink_kasa_process_buffer (parse : List Nat → Option Json)
    (print : Json → List Nat) (raw_buffer : List Nat) (include_header : Bool) :
    List Nat × Nat :=
  let json_string := (tplink_kasa_decrypt raw_buffer include_header).1
  match parse json_string with
  | none => (raw_buffer, 0)
  | some rx_json_message =>
    let attr_system := cJSON_GetObjectItem (some rx_json_message) "system"
    if cJSON_HasObjectItem attr_system "get_sysinfo" then
      tplink_kasa_encrypt (print buildSysinfoResponse) include_header
    else (raw_buffer, 0)

/-- Observable socket-level steps of one iteration of the TCP branch of
`server_task` (`src/main/wifi.c` lines 199-268). -/
inductive ServerAction where
  | acceptConn | delayRetry | recvData | processBuffer | sendReply | shutdownConn | closeConn
  deriving DecidableEq

/-- The partial-write send loop (lines 256-264): while bytes remain, call
`send`; a negative result logs and breaks.  `sends` lists the successive
`send` return values made available by the peer. -/
def tcp_send_loop : Int → List Int → List ServerAction
  | _, [] => []
  | to_write, w :: rest =>
    if to_write ≤ 0 then []
    else ServerAction.sendReply ::
      (if w < 0 then [] else tcp_send_loop (to_write - w) rest)

/-- One TCP iteration of the `server_task` receive loop (lines 201-268),
given the results of `accept` and `recv`, the reply length produced by
`tplink_kasa_process_buffer`, and the successive `send` results.  A failed
accept delays and retries; a negative or zero `recv` result hits
`continue`, returning to the top of the loop; otherwise the buffer is
processed, the reply written, and the connection shut down and closed. -/
def tcp_serve_iteration (conn : Int) (rx_len : Int) (reply_len : Int)
    (sends : List Int) : List ServerAction :=
  if conn < 0 then [ServerAction.acceptConn, ServerAction.delayRetry]
  else
    ServerAction.acceptConn ::
    ServerAction.recvData ::
    (if rx_len < 0 then []
     else if rx_len = 0 then []
     else ServerAction.processBuffer ::
       (tcp_send_loop reply_len sends ++ [ServerAction.shutdownConn, ServerAction.closeConn]))

/-- Claim C3: for every input buffer longer than the 4-byte header whose
big-endian declared payload length exceeds the bytes remaining after the
header, `tplink_kasa_decrypt` corrects the effective length to the number
of bytes actually available, treats the header as absent (the payload
starts at offset 0), decodes everything available as payload, and returns
that truncated length rather than failing. -/
theorem decrypt_truncates_oversized_declared_length (enc : List Nat) (H : Bool)
    (hlen : header_size < enc.length)
    (hdecl : enc.length - header_size < header_value enc) :
    tplink_kasa_decrypt enc H = (decryptStream cipher_key enc, enc.length) :=
  decrypt_fallback enc hlen hdecl H

/-- Witness for C3 at the concrete 5-byte buffer `[0,0,0,2,1]`, whose
declared length 2 exceeds the single byte remaining after the header. -/
theorem decrypt_truncates_oversized_declared_length_witness :
    tplink_kasa_decrypt [0, 0, 0, 2, 1] true
      = (decryptStream cipher_key [0, 0, 0, 2, 1], 5) :=
  decrypt_truncates_oversized_declared_length [0, 0, 0, 2, 1] true (by decide) (by decide)

/-- Claim C6: for every ciphertext input shorter than the 4-byte header
size, `tplink_kasa_decrypt` returns 0 and produces an empty decrypted
result. -/
theorem decrypt_short_input_empty (enc : List Nat) (H : Bool)
    (h : enc.length < header_size) :
    tplink_kasa_decrypt enc H = ([], 0) := by
  rw [tplink_kasa_decrypt]
  rw [if_pos (by omega)]

/-- Witness for C6 at the concrete 2-byte input `[7, 7]`. -/
theorem decrypt_short_input_empty_witness :
    tplink_kasa_decrypt [7, 7] true = ([], 0) :=
  decrypt_short_input_empty [7, 7] true (by decide)

/-- Claim C5: `tplink_kasa_decrypt` returns the same output and length
whether its `include_header` argument is true or false (the decode path
never consults the flag), while `tplink_kasa_encrypt` honors its flag:
with it set the output is the 4-byte header followed by the ciphertext and
the length includes the header, without it the output is the bare
ciphertext and the returned length excludes the header. -/
theorem decrypt_ignores_flag_encrypt_honors_flag (enc m : List Nat) (h1 h2 : Bool) :
    tplink_kasa_decrypt enc h1 = tplink_kasa_decrypt enc h2
    ∧ (tplink_kasa_encrypt m true).1 = header_bytes m.length ++ (tplink_kasa_encrypt m false).1
    ∧ (tplink_kasa_encrypt m false).1 = encryptStream cipher_key m
    ∧ (tplink_kasa_encrypt m true).2 = m.length + header_size
    ∧ (tplink_kasa_encrypt m false).2 = m.length := by
  refine ⟨rfl, ?_, ?_, ?_, ?_⟩ <;> simp [tplink_kasa_encrypt]

/-- Claim C1 counterexample: the round trip fails as stated for
`H = false`.  Encoding the one-byte message `[123]` without a header gives
the one-byte ciphertext `[208]`, and decoding it (the decoder always
assumes a header) hits the too-short branch and yields the empty result
instead of `[123]`. -/
theorem roundtrip_headerless_counterexample :
    ¬ (tplink_kasa_decrypt (tplink_kasa_encrypt [123] false).1 false).1 = [123] := by
  decide

/-- Claim C1 (amended): the round trip
`decode (encode m H) H = m` holds unconditionally for `H = true` (any
NUL-free byte sequence fitting the working buffer); for `H = false` it
holds only when the ciphertext is longer than the 4-byte header and its
first four bytes, read as a big-endian 32-bit value, exceed the remaining
byte count, since the decoder unconditionally assumes a header. -/
theorem roundtrip_amended (m : List Nat)
    (hb : ∀ b ∈ m, 0 < b ∧ b < 256)
    (hfit : m.length + header_size ≤ 2000) :
    tplink_kasa_decrypt (tplink_kasa_encrypt m true).1 true = (m, m.length)
    ∧ (header_size < m.length →
        m.length - header_size < header_value (encryptStream cipher_key m) →
        tplink_kasa_decrypt (tplink_kasa_encrypt m false).1 false = (m, m.length)) := by
  constructor
  · rcases m with _ | ⟨p, ps⟩
    · decide
    · have hfit4 : (p :: ps).length + 4 ≤ 2000 := by simpa [header_size] using hfit
      have h32 : (encryptStream cipher_key (p :: ps)).length < 2 ^ 32 := by
        rw [length_encryptStream]; omega
      have h0 : encryptStream cipher_key (p :: ps) ≠ [] := by
        simp [encryptStream]
      have henc : (tplink_kasa_encrypt (p :: ps) true).1
          = header_bytes (encryptStream cipher_key (p :: ps)).length
            ++ encryptStream cipher_key (p :: ps) := by
        simp [tplink_kasa_encrypt, length_encryptStream]
      rw [henc, decrypt_header_append _ h0 h32 true, decryptStream_encryptStream,
        length_encryptStream]
  · intro h4 hv
    have henc : (tplink_kasa_encrypt m false).1 = encryptStream cipher_key m := by
      simp [tplink_kasa_encrypt]
    have hl : (encryptStream cipher_key m).length = m.length := length_encryptStream _ _
    rw [henc, decrypt_fallback _ (by omega) (by rw [hl]; exact hv) false,
      decryptStream_encryptStream, hl]

/-- Witness for the amended C1 at the 5-byte message `[10,20,30,40,50]`,
exercising both the header and the headerless round trip. -/
theorem roundtrip_amended_witness :
    tplink_kasa_decrypt (tplink_kasa_encrypt [10, 20, 30, 40, 50] true).1 true
      = ([10, 20, 30, 40, 50], 5)
    ∧ tplink_kasa_decrypt (tplink_kasa_encrypt [10, 20, 30, 40, 50] false).1 false
      = ([10, 20, 30, 40, 50], 5) := by
  have h := roundtrip_amended [10, 20, 30, 40, 50] (by decide) (by decide)
  exact ⟨h.1, h.2 (by decide) (by decide)⟩

/-- Claim C7: with the key seeded to 171, each decrypted byte is the
ciphertext byte XOR the current key and the key then becomes the
ciphertext byte just consumed; each encrypted byte is the plaintext byte
XOR the current key and the key then becomes the ciphertext byte just
produced; the two transforms are exact mirrors, so decryption inverts
encryption. -/
theorem autokey_schedule (cs m : List Nat) (i j : Nat)
    (hi : i < cs.length) (hj : j < m.length) :
    (decryptStream cipher_key cs).getD i 0
      = cs.getD i 0 ^^^ (if i = 0 then cipher_key else cs.getD (i - 1) 0)
    ∧ (encryptStream cipher_key m).getD j 0
      = m.getD j 0 ^^^ (if j = 0 then cipher_key else (encryptStream cipher_key m).getD (j - 1) 0)
    ∧ decryptStream cipher_key (encryptStream cipher_key m) = m :=
  ⟨getD_decryptStream _ _ _ hi, getD_encryptStream _ _ _ hj,
   decryptStream_encryptStream _ _⟩

/-- Witness for C7 at `cs = [1, 2]`, `i = 1`, `m = [3]`, `j = 0`. -/
theorem autokey_schedule_witness :
    (decryptStream cipher_key [1, 2]).getD 1 0
      = [1, 2].getD 1 0 ^^^ (if 1 = 0 then cipher_key else [1, 2].getD (1 - 1) 0)
    ∧ (encryptStream cipher_key [3]).getD 0 0
      = [3].getD 0 0 ^^^ (if 0 = 0 then cipher_key else (encryptStream cipher_key [3]).getD (0 - 1) 0)
    ∧ decryptStream cipher_key (encryptStream cipher_key [3]) = [3] :=
  autokey_schedule [1, 2] [3] 1 0 (by decide) (by decide)

theorem decryptWrites_fallback (enc : List Nat) (hlen : header_size < enc.length)
    (hdecl : enc.length - header_size < header_value enc) :
    decryptWrites enc
      = (List.range enc.length).zip (decryptStream cipher_key enc) ++ [(enc.length, 0)] := by
  rw [decryptWrites]
  simp only [if_neg (by omega : ¬ enc.length ≤ header_size),
    if_pos (by omega : header_value enc > enc.length - header_size),
    List.drop_zero, List.take_length]

theorem decryptWrites_normal (enc : List Nat) (hlen : header_size < enc.length)
    (hdecl : ¬ enc.length - header_size < header_value enc) :
    decryptWrites enc
      = (List.range (header_value enc)).zip
          (decryptStream cipher_key ((enc.drop header_size).take (header_value enc)))
        ++ [(header_value enc, 0)] := by
  rw [decryptWrites]
  simp only [if_neg (by omega : ¬ enc.length ≤ header_size),
    if_neg (by omega : ¬ header_value enc > enc.length - header_size)]

theorem decrypt_normal (enc : List Nat) (H : Bool) (hlen : header_size < enc.length)
    (hdecl : ¬ enc.length - header_size < header_value enc) :
    tplink_kasa_decrypt enc H
      = (decryptStream cipher_key ((enc.drop header_size).take (header_value enc)),
         header_value enc) := by
  rw [tplink_kasa_decrypt]
  simp only [if_neg (by omega : ¬ enc.length ≤ header_size),
    if_neg (by omega : ¬ header_value enc > enc.length - header_size)]

/-- Claim C4 (code bug, exhibited): at the 5-byte input `[0,0,0,2,1]`,
whose declared length 2 exceeds the 1 byte left after the header, all
input reads stay below `encrypted_len = 5`, but the truncation fallback
returns length 5 and the terminator write lands at output index 5 —
one past an output buffer of exactly `encrypted_len` bytes, which is
precisely the capacity `tplink_kasa_process_buffer` allocates. -/
theorem decrypt_oob_terminator_write :
    (∀ i ∈ decryptReadIdxs [0, 0, 0, 2, 1], i < 5)
    ∧ (5, 0) ∈ decryptWrites [0, 0, 0, 2, 1]
    ∧ json_string_capacity 5 = 5
    ∧ (tplink_kasa_decrypt [0, 0, 0, 2, 1] true).2 = 5 := by
  decide

/-- Claim C10: whenever `tplink_kasa_decrypt` returns a length `L > 0` it
has written the indices `0 .. L` of the output buffer — `L + 1` bytes,
the last being the terminating null at index `L` — so an output buffer
must hold at least `L + 1` bytes; the truncation fallback can make `L`
equal to the full input length, in which case the exactly-`buffer_len`
capacity allocated by `tplink_kasa_process_buffer` is one byte short. -/
theorem decrypt_writes_length_plus_one (enc : List Nat) (H : Bool)
    (h : 0 < (tplink_kasa_decrypt enc H).2) :
    (decryptWrites enc).map Prod.fst = List.range ((tplink_kasa_decrypt enc H).2 + 1)
    ∧ ((tplink_kasa_decrypt enc H).2, 0) ∈ decryptWrites enc
    ∧ (decryptWrites enc).length = (tplink_kasa_decrypt enc H).2 + 1
    ∧ ((tplink_kasa_decrypt enc H).2 = enc.length →
        json_string_capacity enc.length < (tplink_kasa_decrypt enc H).2 + 1)
    ∧ ∃ e : List Nat, header_size < e.length ∧ (tplink_kasa_decrypt e true).2 = e.length := by
  by_cases hg : enc.length ≤ header_size
  · exfalso
    rw [tplink_kasa_decrypt, if_pos hg] at h
    exact absurd h (by simp)
  · have hlen : header_size < enc.length := by omega
    by_cases hd : enc.length - header_size < header_value enc
    · have hdec := decrypt_fallback enc hlen hd H
      have hw := decryptWrites_fallback enc hlen hd
      have hsl : (decryptStream cipher_key enc).length = enc.length :=
        length_decryptStream _ _
      rw [hdec, hw]
      refine ⟨?_, ?_, ?_, ?_, ⟨[0, 0, 0, 2, 1], by decide, by decide⟩⟩
      · rw [List.map_append, List.map_fst_zip _ _ (by simp [hsl])]
        simp [List.range_succ]
      · simp
      · simp [List.length_zip, hsl]
      · intro _
        simp [json_string_capacity]
    · have hdec := decrypt_normal enc H hlen hd
      have hw := decryptWrites_normal enc hlen hd
      have hsl : (decryptStream cipher_key
          ((enc.drop header_size).take (header_value enc))).length = header_value enc := by
        rw [length_decryptStream, List.length_take, List.length_drop]
        omega
      rw [hdec, hw]
      refine ⟨?_, ?_, ?_, ?_, ⟨[0, 0, 0, 2, 1], by decide, by decide⟩⟩
      · rw [List.map_append, List.map_fst_zip _ _ (by simp [hsl])]
        simp [List.range_succ]
      · simp
      · simp [List.length_zip, hsl]
      · intro he
        simp only [json_string_capacity]
        simp at he
        omega

/-- Witness for C10 at the concrete fallback input `[0,0,0,2,1]`. -/
theorem decrypt_writes_length_plus_one_witness :
    (decryptWrites [0, 0, 0, 2, 1]).map Prod.fst
      = List.range ((tplink_kasa_decrypt [0, 0, 0, 2, 1] true).2 + 1)
    ∧ ((tplink_kasa_decrypt [0, 0, 0, 2, 1] true).2, 0) ∈ decryptWrites [0, 0, 0, 2, 1]
    ∧ (decryptWrites [0, 0, 0, 2, 1]).length
      = (tplink_kasa_decrypt [0, 0, 0, 2, 1] true).2 + 1
    ∧ ((tplink_kasa_decrypt [0, 0, 0, 2, 1] true).2 = ([0, 0, 0, 2, 1] : List Nat).length →
        json_string_capacity ([0, 0, 0, 2, 1] : List Nat).length
          < (tplink_kasa_decrypt [0, 0, 0, 2, 1] true).2 + 1)
    ∧ ∃ e : List Nat, header_size < e.length ∧ (tplink_kasa_decrypt e true).2 = e.length :=
  decrypt_writes_length_plus_one [0, 0, 0, 2, 1] true (by decide)

/-- Claim C2 (code bug, exhibited): the response built for a `get_sysinfo`
request is the descriptor template completely unchanged — the source adds
`temperature`, `humidity` and `err_code` (with the compile-time constants
0, never a sensor read) to the member `state` of `get_sysinfo`, which does
not exist in the template, so `cJSON_GetObjectItem` yields `NULL` and the
additions are dropped; in particular the reply carries no `temperature` or
`humidity` field at all, and the reply bytes are the encryption of that
bare template regardless of the actual sensor values. -/
theorem sysinfo_reply_lacks_sensor_data :
    buildSysinfoResponse = tplink_kasa_sysinfo
    ∧ cJSON_GetObjectItem (cJSON_GetObjectItem (cJSON_GetObjectItem
        (some tplink_kasa_sysinfo) "system") "get_sysinfo") "state" = none
    ∧ cJSON_GetObjectItem (cJSON_GetObjectItem (cJSON_GetObjectItem
        (some buildSysinfoResponse) "system") "get_sysinfo") "temperature" = none
    ∧ cJSON_GetObjectItem (cJSON_GetObjectItem (cJSON_GetObjectItem
        (some buildSysinfoResponse) "system") "get_sysinfo") "humidity" = none
    ∧ tplink_kasa_process_buffer
        (fun _ => some (Json.obj [("system", Json.obj [("get_sysinfo", Json.obj [])])]))
        (fun _ => [0]) [9, 9, 9, 9, 9] true
      = tplink_kasa_encrypt [0] true := by
  refine ⟨?_, ?_, ?_, ?_, ?_⟩ <;> rfl

/-- Claim C8: for every received buffer that either fails to parse as a
valid document or parses to a document without a `get_sysinfo` member
under `system`, `tplink_kasa_process_buffer` produces no reply and
returns length 0. -/
theorem process_buffer_no_reply (parse : List Nat → Option Json)
    (print : Json → List Nat) (raw : List Nat) (H : Bool)
    (h : ∀ j, parse (tplink_kasa_decrypt raw H).1 = some j →
        cJSON_HasObjectItem (cJSON_GetObjectItem (some j) "system") "get_sysinfo" = false) :
    tplink_kasa_process_buffer parse print raw H = (raw, 0) := by
  simp only [tplink_kasa_process_buffer]
  cases hp : parse (tplink_kasa_decrypt raw H).1 with
  | none => rfl
  | some j => simp [h j hp]

/-- Witness for C8 with a parser that rejects every buffer. -/
theorem process_buffer_no_reply_witness :
    tplink_kasa_process_buffer (fun _ => none) (fun _ => []) [1, 2, 3] true
      = ([1, 2, 3], 0) :=
  process_buffer_no_reply (fun _ => none) (fun _ => []) [1, 2, 3] true
    (fun _ hj => Option.noConfusion hj)

/-- Claim C9 (code bug, exhibited): in the TCP branch of `server_task`, a
zero-byte read (peer closed) and a negative read both hit `continue`,
returning to `accept` with neither `shutdown` nor `close` executed on the
accepted connection — the socket is leaked; only the path that reaches
the reply ends with the shutdown and close. -/
theorem tcp_connection_leak_on_early_exit :
    ServerAction.closeConn ∉ tcp_serve_iteration 0 0 0 []
    ∧ ServerAction.shutdownConn ∉ tcp_serve_iteration 0 0 0 []
    ∧ ServerAction.closeConn ∉ tcp_serve_iteration 0 (-1) 0 []
    ∧ ServerAction.shutdownConn ∉ tcp_serve_iteration 0 (-1) 0 []
    ∧ ServerAction.closeConn ∈ tcp_serve_iteration 0 5 850 [850]
    ∧ ServerAction.closeConn ∈ tcp_serve_iteration 0 5 850 [-1] := by
  decide
